import Mathlib

/-!
# Shallow embedding of the audio-streaming-poc browser client

This file embeds the parts of the repository's client code that the
verified claims are about:

* `src/frontend/src/components/ConversationSession.tsx` — the room-mode
  client (phase-driven mic capture, binary control markers, mute,
  30-second encoder restart, echo-suppression `mic_locked` handling,
  room create/join, and the TTS playback queue);
* `src/frontend/src/components/AudioRecorder.tsx` — the solo-mode
  client (query-string construction for `/ws/audio`).

The React component is embedded as an explicit state machine: the
component's `useState`/`useRef` cells become fields of `CState`, and
every WebSocket callback, message-handler branch, timer callback and
button click becomes one atomic event of `Ev`, interpreted by `stepEv`.
Each handler is translated line by line from the source (line numbers in
the doc comments).  Asynchronous handlers are treated as atomic steps,
and `getUserMedia` is assumed to succeed (the mic-permission failure
branch only sets an error string).  Outbound binary WebSocket payloads
(`ws.send`) are collected as a list of `Payload` outputs per step.
-/

namespace AudioPoc

/-! ## Binary control markers (ConversationSession.tsx lines 52–55) -/

def MARKER_SESSION_START : List Nat := [0x53, 0x54, 0x52, 0x54]
def MARKER_SESSION_END   : List Nat := [0x45, 0x4E, 0x44, 0x53]
def MARKER_MIC_MUTE      : List Nat := [0x4D, 0x55, 0x54, 0x45]
def MARKER_MIC_UNMUTE    : List Nat := [0x55, 0x4E, 0x4D, 0x54]

/-- Session phases of the room client (ConversationSession.tsx lines 24–29). -/
inductive Phase
  | lobby
  | waiting
  | ready
  | active
  | ended
deriving DecidableEq

/-- The `status` field of a `session_status` server message. -/
inductive Status
  | waiting
  | ready
  | active
  | ended
deriving DecidableEq

/-- The room languages the creator can pick (`'en' | 'es' | 'pt'`,
ConversationSession.tsx lines 71–72). -/
inductive RoomLang
  | en
  | es
  | pt
deriving DecidableEq

/-- Wire code of a room language. -/
def RoomLang.code : RoomLang → String
  | .en => "en"
  | .es => "es"
  | .pt => "pt"

/-- A binary payload sent by the client on the WebSocket: either the raw
bytes of a control marker (`ws.send(MARKER_…)`) or an encoded audio chunk
of a given size (`ws.send(e.data)`). -/
inductive Payload
  | bytes (b : List Nat)
  | audio (size : Nat)
deriving DecidableEq

/-- State of the room client: the `useState` and `useRef` cells of
`ConversationSession` that the claims depend on.  `isMuted` stands for
both `isMuted` and its mirror `isMutedRef` (kept in sync by the
`useEffect` on line 106).  `capturing` means `mediaRecorderRef` holds a
recorder in `'recording'` state (`isRecording`).  `restartTimer` means
the 30-second restart interval (`recorderRestartRef`) is installed.
`headerGen` counts `MediaRecorder.start` calls, i.e. fresh WebM headers.
`lockTimeouts` holds the fire times of pending `setTimeout` callbacks
armed by the `mic_locked` handler, and `now` is the current time in ms.
`conn` holds the query parameters of the WebSocket created by
`connectToRoom` (`none` when `wsRef.current === null`); `wsOpen` means
its `readyState` is `OPEN`.  `lastStatus` is a ghost field recording the
most recent `session_status` received. -/
structure CState where
  phase : Phase
  wsOpen : Bool
  conn : Option (List (String × String))
  isCreator : Bool
  isMuted : Bool
  micLocked : Bool
  capturing : Bool
  restartTimer : Bool
  headerGen : Nat
  lockTimeouts : List Nat
  now : Nat
  partnerMuted : Bool
  errorMsg : Option String
  langA : RoomLang
  langB : RoomLang
  myName : String
  joinName : String
  joinCode : String
  lastStatus : Option Status
deriving DecidableEq

/-- Initial component state (the `useState` initializers). -/
def initState : CState where
  phase := .lobby
  wsOpen := false
  conn := none
  isCreator := false
  isMuted := false
  micLocked := false
  capturing := false
  restartTimer := false
  headerGen := 0
  lockTimeouts := []
  now := 0
  partnerMuted := false
  errorMsg := none
  langA := .en
  langB := .es
  myName := ""
  joinName := ""
  joinCode := ""
  lastStatus := none

/-! ## Audio capture (ConversationSession.tsx lines 193–255) -/

/-- `stopAudioCapture` (lines 240–255): clears the timer and the
30-second restart interval, stops the recorder and releases the stream,
and resets the mute and mic-lock flags. -/
def stopAudioCapture (s : CState) : CState :=
  { s with capturing := false, restartTimer := false,
           isMuted := false, micLocked := false }

/-- `startAudioCapture` (lines 193–237): returns immediately unless the
WebSocket is open; otherwise acquires the mic, creates a `MediaRecorder`
and starts it (one fresh WebM header), resets mute, and installs the
30-second restart interval. -/
def startAudioCapture (s : CState) : CState :=
  if s.wsOpen then
    { s with capturing := true, isMuted := false,
             restartTimer := true, headerGen := s.headerGen + 1 }
  else s

/-- The restart cadence constant `RESTART_INTERVAL_MS` (line 226). -/
def RESTART_INTERVAL_MS : Nat := 30000

/-- The guard and send of `recorder.ondataavailable` (lines 210–215):
the chunk is sent iff it is non-empty, the socket is open and the client
is not muted.  Note that `micLocked` is not consulted. -/
def ondataavailable (s : CState) (size : Nat) : List Payload :=
  if size ≠ 0 ∧ s.wsOpen = true ∧ s.isMuted = false then [.audio size] else []

/-! ## Session controls (ConversationSession.tsx lines 264–287) -/

/-- `startSession` (lines 265–269): sends `STRT` when the socket is open. -/
def startSession (s : CState) : List Payload :=
  if s.wsOpen then [.bytes MARKER_SESSION_START] else []

/-- `endSession` (lines 272–276): sends `ENDS` when the socket is open. -/
def endSession (s : CState) : List Payload :=
  if s.wsOpen then [.bytes MARKER_SESSION_END] else []

/-- `toggleMute` (lines 279–287): no-op when the socket is not open;
otherwise flips the mute flag and sends `MUTE` when becoming muted and
`UNMT` when becoming unmuted. -/
def toggleMute (s : CState) : CState × List Payload :=
  if s.wsOpen then
    ({ s with isMuted := !s.isMuted },
     [.bytes (if !s.isMuted then MARKER_MIC_MUTE else MARKER_MIC_UNMUTE)])
  else (s, [])

/-! ## Connection (ConversationSession.tsx lines 290–454) -/

/-- JavaScript `v || d` on strings: the default kicks in on the empty
string. -/
def orDefault (v d : String) : String := if v = "" then d else v

/-- JavaScript `String.prototype.toUpperCase()`: uppercase every
character (spelled out over the character list so that it evaluates). -/
def upper (s : String) : String := ⟨s.data.map Char.toUpper⟩

/-- JavaScript `String.prototype.trim()`: strip leading and trailing
whitespace. -/
def trimJs (s : String) : String :=
  ⟨((s.data.dropWhile Char.isWhitespace).reverse.dropWhile Char.isWhitespace).reverse⟩

/-- Options of `connectToRoom` (lines 290–295). -/
structure ConnectOpts where
  roomId : Option String
  name : String
  myLang : Option String
  partnerLang : Option String

/-- Query-parameter construction of `connectToRoom` (lines 300–311):
join path sets `room_id` and `isCreator := false`; create path sets
`my_lang`/`partner_lang` (with `|| 'en'` / `|| 'es'` defaults) and
`isCreator := true`; both append `name` (with `|| 'User'`).  A new
WebSocket is created (`conn` set, not yet open) and the error is
cleared. -/
def connectToRoom (s : CState) (opts : ConnectOpts) : CState :=
  let ps : List (String × String) :=
    match opts.roomId with
    | some rid => [("room_id", rid)]
    | none => [("my_lang", orDefault (opts.myLang.getD "") "en"),
               ("partner_lang", orDefault (opts.partnerLang.getD "") "es")]
  { s with errorMsg := none,
           isCreator := opts.roomId.isNone,
           conn := some (ps ++ [("name", orDefault opts.name "User")]),
           wsOpen := false }

/-- `handleCreate` (lines 456–463): rejects an equal language pair with
the error `'Languages must be different'` before touching anything else;
otherwise clears the chat state and connects on the create path. -/
def handleCreate (s : CState) : CState :=
  if s.langA = s.langB then { s with errorMsg := some "Languages must be different" }
  else
    connectToRoom { s with partnerMuted := false }
      { roomId := none, name := s.myName,
        myLang := some s.langA.code, partnerLang := some s.langB.code }

/-- `handleJoin` (lines 465–473): normalizes the entered code by
`trim().toUpperCase()`, rejects an empty result with the error
`'Please enter a room code'`, and otherwise connects on the join path. -/
def handleJoin (s : CState) : CState :=
  if upper (trimJs s.joinCode) = "" then { s with errorMsg := some "Please enter a room code" }
  else
    connectToRoom { s with partnerMuted := false }
      { roomId := some (upper (trimJs s.joinCode)), name := s.joinName,
        myLang := none, partnerLang := none }

/-- `disconnectAll` (lines 258–262): stop capture and close/clear the
socket. -/
def disconnectAll (s : CState) : CState :=
  { stopAudioCapture s with wsOpen := false, conn := none }

/-- `handleLeave` (lines 475–488): disconnect and reset the session
state back to the lobby. -/
def handleLeave (s : CState) : CState :=
  let s' := disconnectAll s
  { s' with phase := .lobby, micLocked := false, isMuted := false,
            partnerMuted := false, isCreator := false }

/-! ## Server-message handlers (ConversationSession.tsx lines 336–449) -/

/-- The `session_status` branch (lines 376–396): `waiting` only changes
the phase; `ready` and `ended` stop capture; `active` sets the phase and
then starts capture. -/
def onSessionStatus (s : CState) (st : Status) : CState :=
  let s := { s with lastStatus := some st }
  match st with
  | .waiting => { s with phase := .waiting }
  | .ready => { stopAudioCapture s with phase := .ready }
  | .active => startAudioCapture { s with phase := .active }
  | .ended => { stopAudioCapture s with phase := .ended }

/-- `msg.duration_ms || 2000` (line 437): absent or zero falls back to
2000 ms. -/
def lockDuration : Option Nat → Nat
  | none => 2000
  | some v => if v = 0 then 2000 else v

/-- The `mic_locked` branch (lines 434–440): sets the `micLocked` flag
and arms a `setTimeout` that will clear it after the hinted duration.
Earlier pending timeouts are not cancelled. -/
def onMicLocked (s : CState) (d : Option Nat) : CState :=
  { s with micLocked := true,
           lockTimeouts := s.lockTimeouts ++ [s.now + lockDuration d] }

/-- Passage of `dt` ms: every armed `setTimeout` whose fire time has
been reached runs `setMicLocked(false)`. -/
def elapse (s : CState) (dt : Nat) : CState :=
  let t := s.now + dt
  { s with now := t,
           micLocked := if s.lockTimeouts.any (fun x => decide (x ≤ t)) then false
                        else s.micLocked,
           lockTimeouts := s.lockTimeouts.filter (fun x => decide (t < x)) }

/-- The `error` branch (lines 442–446). -/
def onServerError (s : CState) (m : String) : CState :=
  let s' := disconnectAll { s with errorMsg := some (orDefault m "Unknown error") }
  { s' with phase := .lobby }

/-- `ws.onclose` (lines 331–334): stop capture, clear the socket; the
phase is left unchanged. -/
def onWsClose (s : CState) : CState :=
  { stopAudioCapture s with wsOpen := false, conn := none }

/-- `ws.onerror` (lines 325–329). -/
def onWsError (s : CState) : CState :=
  let s' := disconnectAll { s with errorMsg := some "Connection failed. Is the server running?" }
  { s' with phase := .lobby }

/-! ## Rendering gates (ConversationSession.tsx lines 949–1240)

The lobby create/join controls render only in phase `lobby`; the Start
Session button renders only in phase `ready` and only for the creator
(lines 1090–1104); the End Session button renders only in phase `active`
and only for the creator (lines 1227–1234); the mute button renders in
phase `active` for both parties (lines 1200–1224). -/

def showStartButton (s : CState) : Bool :=
  decide (s.phase = Phase.ready) && s.isCreator

def showEndButton (s : CState) : Bool :=
  decide (s.phase = Phase.active) && s.isCreator

def showMuteButton (s : CState) : Bool :=
  decide (s.phase = Phase.active)

/-! ## Events and the step function -/

/-- One atomic event of the room client: a WebSocket callback, a parsed
server message, a timer firing, time passing, or a user interaction with
a rendered control. -/
inductive Ev
  | wsOpened
  | wsClosed
  | wsErrored
  | statusMsg (st : Status)
  | micLockedMsg (d : Option Nat)
  | partnerMutedMsg (b : Bool)
  | serverErrorMsg (m : String)
  | dataAvail (size : Nat)
  | restartTick
  | timePasses (dt : Nat)
  | clickStart
  | clickEnd
  | clickMute
  | clickLeave
  | clickCreate
  | clickJoin
  | typeJoinCode (v : String)
  | typeMyName (v : String)
  | typeJoinName (v : String)
  | pickLangs (a b : RoomLang)
deriving DecidableEq

/-- Interpretation of one event: the successor state and the binary
payloads sent during the step.  `ws.onopen` (lines 321–323) only logs —
it does not start capture.  The 30-second interval callback
(lines 227–233) stops and restarts the recorder when it is recording,
producing a fresh header.  Button clicks outside their rendering gate
cannot happen and are no-ops. -/
def stepEv (s : CState) : Ev → CState × List Payload
  | .wsOpened => (if s.conn.isSome then { s with wsOpen := true } else s, [])
  | .wsClosed => (onWsClose s, [])
  | .wsErrored => (onWsError s, [])
  | .statusMsg st => (onSessionStatus s st, [])
  | .micLockedMsg d => (onMicLocked s d, [])
  | .partnerMutedMsg b => ({ s with partnerMuted := b }, [])
  | .serverErrorMsg m => (onServerError s m, [])
  | .dataAvail n => (s, ondataavailable s n)
  | .restartTick =>
      (if s.restartTimer = true ∧ s.capturing = true then
        { s with headerGen := s.headerGen + 1 }
       else s, [])
  | .timePasses dt => (elapse s dt, [])
  | .clickStart => (s, if showStartButton s then startSession s else [])
  | .clickEnd => (s, if showEndButton s then endSession s else [])
  | .clickMute => if showMuteButton s then toggleMute s else (s, [])
  | .clickLeave => (handleLeave s, [])
  | .clickCreate => (if s.phase = Phase.lobby then handleCreate s else s, [])
  | .clickJoin => (if s.phase = Phase.lobby then handleJoin s else s, [])
  | .typeJoinCode v => ({ s with joinCode := upper v }, [])
  | .typeMyName v => ({ s with myName := v }, [])
  | .typeJoinName v => ({ s with joinName := v }, [])
  | .pickLangs a b => ({ s with langA := a, langB := b }, [])

/-- Run a list of events, collecting all sent payloads in order. -/
def runEvents : CState → List Ev → CState × List Payload
  | s, [] => (s, [])
  | s, e :: es =>
      let p := stepEv s e
      let q := runEvents p.1 es
      (q.1, p.2 ++ q.2)

/-! ## Server-conformant status sequences

The spec's room phase machine (§3) allows exactly the transitions
`waiting → ready`, `ready → active`, `active → ready`, `ready → waiting`
and `any → ended`; the server broadcasts `session_status` on each
transition, so the statuses one client receives follow these edges. -/

def legalNext : Status → Status → Bool
  | _, .ended => true
  | .waiting, .ready => true
  | .ready, .active => true
  | .ready, .waiting => true
  | .active, .ready => true
  | _, _ => false

/-- An event is admissible in a state when it is a `session_status`
consistent with the server's phase machine, or any other event. -/
def evOK (s : CState) : Ev → Prop
  | .statusMsg st =>
      match s.lastStatus with
      | none => True
      | some p => legalNext p st = true
  | _ => True

instance (s : CState) (e : Ev) : Decidable (evOK s e) := by
  cases e <;> first
    | exact inferInstanceAs (Decidable True)
    | · rename_i st
        unfold evOK
        cases s.lastStatus
        · exact inferInstanceAs (Decidable True)
        · exact inferInstanceAs (Decidable (_ = true))

/-- States of the room client reachable by admissible events. -/
inductive Reach : CState → Prop
  | init : Reach initState
  | next (s : CState) (e : Ev) (h : Reach s) (hok : evOK s e) : Reach (stepEv s e).1

/-! ## Solo mode: AudioRecorder.tsx

The solo client's language selector is typed
`'auto' | 'en' | 'es' | 'pt'` and the target selector
`'none' | 'en' | 'es' | 'pt'` (AudioRecorder.tsx lines 48–49). -/

inductive SoloLang
  | auto
  | en
  | es
  | pt
deriving DecidableEq, Fintype

def SoloLang.code : SoloLang → String
  | .auto => "auto"
  | .en => "en"
  | .es => "es"
  | .pt => "pt"

inductive SoloTarget
  | noTarget
  | en
  | es
  | pt
deriving DecidableEq, Fintype

def SoloTarget.code : SoloTarget → String
  | .noTarget => "none"
  | .en => "en"
  | .es => "es"
  | .pt => "pt"

/-- Query-string fragments built by `startRecording`
(AudioRecorder.tsx lines 171–174): `lang` is pushed only for a specific
language, `target_lang` only for a specific target, and `tts=false` is
pushed only when the TTS toggle is disabled. -/
def soloQueryParams (language : SoloLang) (targetLanguage : SoloTarget)
    (ttsEnabled : Bool) : List String :=
  (if language ≠ SoloLang.auto then ["lang=" ++ language.code] else []) ++
  (if targetLanguage ≠ SoloTarget.noTarget then ["target_lang=" ++ targetLanguage.code] else []) ++
  (if !ttsEnabled then ["tts=false"] else [])

/-- `params.join('&')` (line 175). -/
def soloQueryString (language : SoloLang) (targetLanguage : SoloTarget)
    (ttsEnabled : Bool) : String :=
  String.intercalate "&" (soloQueryParams language targetLanguage ttsEnabled)

/-- The WebSocket URL of `startRecording` (lines 176–178). -/
def soloWsUrl (serverUrl : String) (language : SoloLang)
    (targetLanguage : SoloTarget) (ttsEnabled : Bool) : String :=
  let queryStr := soloQueryString language targetLanguage ttsEnabled
  if queryStr = "" then serverUrl
  else serverUrl ++ (if serverUrl.contains '?' then "&" else "?") ++ queryStr

/-! ## TTS playback queue (ConversationSession.tsx lines 108–142)

The queue machinery is shared verbatim with AudioRecorder.tsx
(lines 70–106).  Buffers are identified by a `Nat`; the decode oracle
`ok` says whether `decodeAudioData` succeeds on a buffer.  `started` is
a ghost log of the buffers whose playback began, in order; `enqueued` is
a ghost log of every buffer received. -/

structure TtsState where
  queue : List Nat
  playing : Bool
  indicator : Bool
  current : Option Nat
  started : List Nat
  enqueued : List Nat
deriving DecidableEq

def initTts : TtsState where
  queue := []
  playing := false
  indicator := false
  current := none
  started := []
  enqueued := []

/-- `playNextTts` (lines 109–137): returns at once when a buffer is
already playing (`ttsPlayingRef` guard); otherwise shifts the queue —
an empty queue clears the indicator; a buffer that decodes starts
playing (flag and indicator set); a buffer that fails to decode clears
the flags and recurses on the rest of the queue. -/
def playNextTts (ok : Nat → Bool) (s : TtsState) : TtsState :=
  if s.playing then s
  else
    match h : s.queue with
    | [] => { s with indicator := false }
    | b :: rest =>
      if ok b then
        { s with queue := rest, playing := true, indicator := true,
                 current := some b, started := s.started ++ [b] }
      else
        playNextTts ok { s with queue := rest, playing := false,
                                indicator := false, current := s.current }
termination_by s.queue.length
decreasing_by simp [h]

/-- Events of the TTS queue: a binary WebSocket message arriving
(`enqueueTtsAudio`, lines 139–142) and the `onended` callback of the
playing source (lines 126–129). -/
inductive TtsEv
  | enqueue (b : Nat)
  | ended
deriving DecidableEq

def ttsStep (ok : Nat → Bool) (s : TtsState) : TtsEv → TtsState
  | .enqueue b =>
      playNextTts ok { s with queue := s.queue ++ [b], enqueued := s.enqueued ++ [b] }
  | .ended =>
      if s.playing then
        playNextTts ok { s with playing := false, current := none }
      else s

def runTts (ok : Nat → Bool) : TtsState → List TtsEv → TtsState
  | s, [] => s
  | s, e :: es => runTts ok (ttsStep ok s e) es

/-! ## Concrete runs and states used below -/

/-- A state whose WebSocket is connected and open. -/
def wsOpenState : CState := { initState with wsOpen := true }

/-- A host's run up to a live session: create the room, socket opens,
then `session_status` `waiting` → `ready` → `active`. -/
def captureRunEvents : List Ev :=
  [Ev.clickCreate, Ev.wsOpened, Ev.statusMsg Status.waiting,
   Ev.statusMsg Status.ready, Ev.statusMsg Status.active]

def captureState : CState := (runEvents initState captureRunEvents).1

/-- The same run continued by a `mic_locked` hint of 2000 ms followed
immediately (no time passes) by a recorder chunk of 4096 bytes. -/
def lockRunEvents : List Ev :=
  captureRunEvents ++ [Ev.micLockedMsg (some 2000), Ev.dataAvail 4096]

/-- A guest's run: type a room code, join, and click every session
control across `ready` and `active`. -/
def joinRunEvents : List Ev :=
  [Ev.typeJoinCode "ab12cd", Ev.clickJoin, Ev.wsOpened, Ev.statusMsg Status.ready,
   Ev.clickStart, Ev.statusMsg Status.active, Ev.clickEnd, Ev.clickMute]

/-- Invariant of the TTS playback queue: the playing flag mirrors the
existence of a current source and drives the indicator; when idle the
queue has been fully processed; and the buffers whose playback started
are exactly the decodable ones among the processed prefix (`done`) of
the arrival order. -/
def TtsInv (ok : Nat → Bool) (s : TtsState) : Prop :=
  s.playing = s.current.isSome ∧
  s.indicator = s.playing ∧
  (s.playing = false → s.queue = []) ∧
  ∃ done, s.enqueued = done ++ s.queue ∧ s.started = done.filter ok

/-! ## Projection helper lemmas -/

@[simp] theorem connectToRoom_capturing (s : CState) (o : ConnectOpts) :
    (connectToRoom s o).capturing = s.capturing := rfl

@[simp] theorem connectToRoom_phase (s : CState) (o : ConnectOpts) :
    (connectToRoom s o).phase = s.phase := rfl

@[simp] theorem connectToRoom_lastStatus (s : CState) (o : ConnectOpts) :
    (connectToRoom s o).lastStatus = s.lastStatus := rfl

@[simp] theorem connectToRoom_restartTimer (s : CState) (o : ConnectOpts) :
    (connectToRoom s o).restartTimer = s.restartTimer := rfl

@[simp] theorem handleCreate_capturing (s : CState) :
    (handleCreate s).capturing = s.capturing := by
  unfold handleCreate; split <;> rfl

@[simp] theorem handleCreate_phase (s : CState) :
    (handleCreate s).phase = s.phase := by
  unfold handleCreate; split <;> rfl

@[simp] theorem handleCreate_lastStatus (s : CState) :
    (handleCreate s).lastStatus = s.lastStatus := by
  unfold handleCreate; split <;> rfl

@[simp] theorem handleCreate_restartTimer (s : CState) :
    (handleCreate s).restartTimer = s.restartTimer := by
  unfold handleCreate; split <;> rfl

@[simp] theorem handleJoin_capturing (s : CState) :
    (handleJoin s).capturing = s.capturing := by
  unfold handleJoin; split <;> rfl

@[simp] theorem handleJoin_phase (s : CState) :
    (handleJoin s).phase = s.phase := by
  unfold handleJoin; split <;> rfl

@[simp] theorem handleJoin_lastStatus (s : CState) :
    (handleJoin s).lastStatus = s.lastStatus := by
  unfold handleJoin; split <;> rfl

@[simp] theorem handleJoin_restartTimer (s : CState) :
    (handleJoin s).restartTimer = s.restartTimer := by
  unfold handleJoin; split <;> rfl

@[simp] theorem toggleMute_capturing (s : CState) :
    (toggleMute s).1.capturing = s.capturing := by
  unfold toggleMute; split <;> rfl

@[simp] theorem toggleMute_phase (s : CState) :
    (toggleMute s).1.phase = s.phase := by
  unfold toggleMute; split <;> rfl

@[simp] theorem toggleMute_lastStatus (s : CState) :
    (toggleMute s).1.lastStatus = s.lastStatus := by
  unfold toggleMute; split <;> rfl

@[simp] theorem toggleMute_restartTimer (s : CState) :
    (toggleMute s).1.restartTimer = s.restartTimer := by
  unfold toggleMute; split <;> rfl

/-! ## Invariants of the room client -/

/-- Mic capture can only be on in phase `active`, and only after an
`active` status: the strengthened induction invariant behind claim C1. -/
theorem reach_capturing_active {s : CState} (h : Reach s) :
    s.capturing = true → s.phase = Phase.active ∧ s.lastStatus = some Status.active := by
  induction h with
  | init => intro hc; simp [initState] at hc
  | next s e hs hok ih =>
    cases e with
    | wsOpened =>
      by_cases hc : s.conn.isSome <;> simp only [stepEv, hc, if_true, if_false] <;>
        simpa using ih
    | wsClosed => simp [stepEv, onWsClose, stopAudioCapture]
    | wsErrored => simp [stepEv, onWsError, disconnectAll, stopAudioCapture]
    | statusMsg st =>
      cases st with
      | waiting =>
        simp only [stepEv, onSessionStatus]
        intro hc
        rcases ih (by simpa using hc) with ⟨-, hls⟩
        simp only [evOK, hls, legalNext] at hok
        exact absurd hok (by decide)
      | ready => simp [stepEv, onSessionStatus, stopAudioCapture]
      | active =>
        simp only [stepEv, onSessionStatus, startAudioCapture]
        by_cases hw : s.wsOpen = true <;> simp [hw]
      | ended => simp [stepEv, onSessionStatus, stopAudioCapture]
    | micLockedMsg d => simp only [stepEv, onMicLocked]; simpa using ih
    | partnerMutedMsg b => simpa [stepEv] using ih
    | serverErrorMsg m => simp [stepEv, onServerError, disconnectAll, stopAudioCapture]
    | dataAvail n => simpa [stepEv] using ih
    | restartTick =>
      simp only [stepEv]
      split
      · simpa using ih
      · exact ih
    | timePasses dt => simp only [stepEv, elapse]; simpa using ih
    | clickStart => simpa [stepEv] using ih
    | clickEnd => simpa [stepEv] using ih
    | clickMute =>
      simp only [stepEv]
      split
      · simpa using ih
      · exact ih
    | clickLeave => simp [stepEv, handleLeave, disconnectAll, stopAudioCapture]
    | clickCreate =>
      simp only [stepEv]
      split
      · simpa using ih
      · exact ih
    | clickJoin =>
      simp only [stepEv]
      split
      · simpa using ih
      · exact ih
    | typeJoinCode v => simpa [stepEv] using ih
    | typeMyName v => simpa [stepEv] using ih
    | typeJoinName v => simpa [stepEv] using ih
    | pickLangs a b => simpa [stepEv] using ih

/-- The 30-second restart interval is installed only while capture is
on: the induction invariant behind claim C3. -/
theorem reach_timer_capturing {s : CState} (h : Reach s) :
    s.restartTimer = true → s.capturing = true := by
  induction h with
  | init => intro hr; simp [initState] at hr
  | next s e hs hok ih =>
    cases e with
    | wsOpened =>
      by_cases hc : s.conn.isSome <;> simp only [stepEv, hc, if_true, if_false] <;>
        simpa using ih
    | wsClosed => simp [stepEv, onWsClose, stopAudioCapture]
    | wsErrored => simp [stepEv, onWsError, disconnectAll, stopAudioCapture]
    | statusMsg st =>
      cases st with
      | waiting => simp only [stepEv, onSessionStatus]; simpa using ih
      | ready => simp [stepEv, onSessionStatus, stopAudioCapture]
      | active =>
        simp only [stepEv, onSessionStatus, startAudioCapture]
        by_cases hw : s.wsOpen = true <;> simp [hw] <;> simpa using ih
      | ended => simp [stepEv, onSessionStatus, stopAudioCapture]
    | micLockedMsg d => simp only [stepEv, onMicLocked]; simpa using ih
    | partnerMutedMsg b => simpa [stepEv] using ih
    | serverErrorMsg m => simp [stepEv, onServerError, disconnectAll, stopAudioCapture]
    | dataAvail n => simpa [stepEv] using ih
    | restartTick =>
      simp only [stepEv]
      split
      · simpa using ih
      · exact ih
    | timePasses dt => simp only [stepEv, elapse]; simpa using ih
    | clickStart => simpa [stepEv] using ih
    | clickEnd => simpa [stepEv] using ih
    | clickMute =>
      simp only [stepEv]
      split
      · simpa using ih
      · exact ih
    | clickLeave => simp [stepEv, handleLeave, disconnectAll, stopAudioCapture]
    | clickCreate =>
      simp only [stepEv]
      split
      · simpa using ih
      · exact ih
    | clickJoin =>
      simp only [stepEv]
      split
      · simpa using ih
      · exact ih
    | typeJoinCode v => simpa [stepEv] using ih
    | typeMyName v => simpa [stepEv] using ih
    | typeJoinName v => simpa [stepEv] using ih
    | pickLangs a b => simpa [stepEv] using ih

/-! ## Output classification and creator-flag lemmas -/

/-- Every payload a step emits is a non-empty audio chunk from
`ondataavailable`, or one of the four markers from its dedicated
control. -/
theorem stepEv_outputs (s : CState) (e : Ev) (p : Payload) (hp : p ∈ (stepEv s e).2) :
    (∃ n, n ≠ 0 ∧ p = Payload.audio n) ∨
    (p = Payload.bytes MARKER_SESSION_START ∧ e = Ev.clickStart ∧
      showStartButton s = true ∧ s.wsOpen = true) ∨
    (p = Payload.bytes MARKER_SESSION_END ∧ e = Ev.clickEnd ∧
      showEndButton s = true ∧ s.wsOpen = true) ∨
    ((p = Payload.bytes MARKER_MIC_MUTE ∨ p = Payload.bytes MARKER_MIC_UNMUTE) ∧
      e = Ev.clickMute) := by
  cases e with
  | dataAvail n =>
    simp only [stepEv, ondataavailable] at hp
    split at hp
    · rename_i hcond
      exact Or.inl ⟨n, hcond.1, by simpa using hp⟩
    · simp at hp
  | clickStart =>
    simp only [stepEv] at hp
    split at hp
    · rename_i hshow
      simp only [startSession] at hp
      split at hp
      · rename_i hws
        exact Or.inr (Or.inl ⟨by simpa using hp, rfl, hshow, hws⟩)
      · simp at hp
    · simp at hp
  | clickEnd =>
    simp only [stepEv] at hp
    split at hp
    · rename_i hshow
      simp only [endSession] at hp
      split at hp
      · rename_i hws
        exact Or.inr (Or.inr (Or.inl ⟨by simpa using hp, rfl, hshow, hws⟩))
      · simp at hp
    · simp at hp
  | clickMute =>
    simp only [stepEv] at hp
    split at hp
    · simp only [toggleMute] at hp
      split at hp
      · simp only [List.mem_singleton] at hp
        refine Or.inr (Or.inr (Or.inr ⟨?_, rfl⟩))
        subst hp
        split
        · exact Or.inl rfl
        · exact Or.inr rfl
      · simp at hp
    · simp at hp
  | wsOpened => simp only [stepEv] at hp; simp at hp
  | wsClosed => simp only [stepEv] at hp; simp at hp
  | wsErrored => simp only [stepEv] at hp; simp at hp
  | statusMsg st => simp only [stepEv] at hp; simp at hp
  | micLockedMsg d => simp only [stepEv] at hp; simp at hp
  | partnerMutedMsg b => simp only [stepEv] at hp; simp at hp
  | serverErrorMsg m => simp only [stepEv] at hp; simp at hp
  | restartTick => simp only [stepEv] at hp; simp at hp
  | timePasses dt => simp only [stepEv] at hp; simp at hp
  | clickLeave => simp only [stepEv] at hp; simp at hp
  | clickCreate => simp only [stepEv] at hp; simp at hp
  | clickJoin => simp only [stepEv] at hp; simp at hp
  | typeJoinCode v => simp only [stepEv] at hp; simp at hp
  | typeMyName v => simp only [stepEv] at hp; simp at hp
  | typeJoinName v => simp only [stepEv] at hp; simp at hp
  | pickLangs a b => simp only [stepEv] at hp; simp at hp

@[simp] theorem stopAudioCapture_isCreator (s : CState) :
    (stopAudioCapture s).isCreator = s.isCreator := rfl

@[simp] theorem startAudioCapture_isCreator (s : CState) :
    (startAudioCapture s).isCreator = s.isCreator := by
  unfold startAudioCapture; split <;> rfl

@[simp] theorem onSessionStatus_isCreator (s : CState) (st : Status) :
    (onSessionStatus s st).isCreator = s.isCreator := by
  cases st <;> simp [onSessionStatus]

@[simp] theorem toggleMute_isCreator (s : CState) :
    (toggleMute s).1.isCreator = s.isCreator := by
  unfold toggleMute; split <;> rfl

theorem handleJoin_isCreator_of (s : CState) (hs : s.isCreator = false) :
    (handleJoin s).isCreator = false := by
  unfold handleJoin
  split
  · exact hs
  · rfl

/-- A client whose creator flag is off keeps it off under any event
other than clicking Create. -/
theorem stepEv_guest_isCreator (s : CState) (hs : s.isCreator = false) (e : Ev)
    (he : e ≠ Ev.clickCreate) : (stepEv s e).1.isCreator = false := by
  cases e with
  | wsOpened => simp only [stepEv]; split <;> simpa using hs
  | wsClosed => simpa [stepEv, onWsClose] using hs
  | wsErrored => simpa [stepEv, onWsError, disconnectAll] using hs
  | statusMsg st => simpa [stepEv] using hs
  | micLockedMsg d => simpa [stepEv, onMicLocked] using hs
  | partnerMutedMsg b => simpa [stepEv] using hs
  | serverErrorMsg m => simpa [stepEv, onServerError, disconnectAll] using hs
  | dataAvail n => simpa [stepEv] using hs
  | restartTick => simp only [stepEv]; split <;> simpa using hs
  | timePasses dt => simpa [stepEv, elapse] using hs
  | clickStart => simpa [stepEv] using hs
  | clickEnd => simpa [stepEv] using hs
  | clickMute => simp only [stepEv]; split <;> simpa using hs
  | clickLeave => simp [stepEv, handleLeave, disconnectAll]
  | clickCreate => exact absurd rfl he
  | clickJoin =>
    simp only [stepEv]
    split
    · exact handleJoin_isCreator_of _ hs
    · exact hs
  | typeJoinCode v => simpa [stepEv] using hs
  | typeMyName v => simpa [stepEv] using hs
  | typeJoinName v => simpa [stepEv] using hs
  | pickLangs a b => simpa [stepEv] using hs

/-- Along any run without a Create click, a client that is not the
creator never sends the `STRT` or `ENDS` marker. -/
theorem no_create_keeps_guest (es : List Ev) :
    ∀ s : CState, s.isCreator = false → (∀ e ∈ es, e ≠ Ev.clickCreate) →
      (runEvents s es).1.isCreator = false ∧
      Payload.bytes MARKER_SESSION_START ∉ (runEvents s es).2 ∧
      Payload.bytes MARKER_SESSION_END ∉ (runEvents s es).2 := by
  induction es with
  | nil =>
    intro s hs _
    exact ⟨hs, by simp [runEvents], by simp [runEvents]⟩
  | cons e es ih =>
    intro s hs hes
    have he : e ≠ Ev.clickCreate := hes e (List.mem_cons_self _ _)
    have hes' : ∀ x ∈ es, x ≠ Ev.clickCreate := fun x hx => hes x (List.mem_cons_of_mem _ hx)
    have hstep := stepEv_guest_isCreator s hs e he
    have hrest := ih (stepEv s e).1 hstep hes'
    have hnostrt : Payload.bytes MARKER_SESSION_START ∉ (stepEv s e).2 := by
      intro hp
      rcases stepEv_outputs s e _ hp with ⟨n, -, h⟩ | ⟨-, -, hshow, -⟩ | ⟨h, -, -, -⟩ | ⟨h, -⟩
      · cases h
      · simp [showStartButton, hs] at hshow
      · exact absurd h (by decide)
      · rcases h with h | h <;> exact absurd h (by decide)
    have hnoend : Payload.bytes MARKER_SESSION_END ∉ (stepEv s e).2 := by
      intro hp
      rcases stepEv_outputs s e _ hp with ⟨n, -, h⟩ | ⟨h, -, -, -⟩ | ⟨-, -, hshow, -⟩ | ⟨h, -⟩
      · cases h
      · exact absurd h (by decide)
      · simp [showEndButton, hs] at hshow
      · rcases h with h | h <;> exact absurd h (by decide)
    refine ⟨hrest.1, ?_, ?_⟩
    · show Payload.bytes MARKER_SESSION_START ∉ (stepEv s e).2 ++ (runEvents (stepEv s e).1 es).2
      simp only [List.mem_append]
      rintro (h | h)
      · exact hnostrt h
      · exact hrest.2.1 h
    · show Payload.bytes MARKER_SESSION_END ∉ (stepEv s e).2 ++ (runEvents (stepEv s e).1 es).2
      simp only [List.mem_append]
      rintro (h | h)
      · exact hnoend h
      · exact hrest.2.2 h

/-! ## TTS queue lemmas -/

theorem playNextTts_playing (ok : Nat → Bool) (s : TtsState) (hp : s.playing = true) :
    playNextTts ok s = s := by
  rw [playNextTts, if_pos hp]

theorem playNextTts_nil (ok : Nat → Bool) (s : TtsState) (hp : s.playing = false)
    (hq : s.queue = []) :
    playNextTts ok s = { s with indicator := false } := by
  rw [playNextTts, if_neg (by simp [hp])]
  split
  · simp [hq]
  · rename_i b rest h; rw [hq] at h; cases h

theorem playNextTts_ok (ok : Nat → Bool) (s : TtsState) (hp : s.playing = false)
    (b : Nat) (rest : List Nat) (hq : s.queue = b :: rest) (hok : ok b = true) :
    playNextTts ok s =
      { s with queue := rest, playing := true, indicator := true,
               current := some b, started := s.started ++ [b] } := by
  rw [playNextTts, if_neg (by simp [hp])]
  split
  · rename_i h; rw [hq] at h; cases h
  · rename_i b' rest' h
    rw [hq] at h
    injection h with h1 h2
    subst h1; subst h2
    rw [if_pos hok]

theorem playNextTts_fail (ok : Nat → Bool) (s : TtsState) (hp : s.playing = false)
    (b : Nat) (rest : List Nat) (hq : s.queue = b :: rest) (hok : ok b = false) :
    playNextTts ok s =
      playNextTts ok
        { s with queue := rest, playing := false, indicator := false,
                 current := s.current } := by
  rw [playNextTts, if_neg (by simp [hp])]
  split
  · rename_i h; rw [hq] at h; cases h
  · rename_i b' rest' h
    rw [hq] at h
    injection h with h1 h2
    subst h1; subst h2
    rw [if_neg (by simp [hok])]

/-- `playNextTts` on an idle state establishes the queue invariant and
does not change the arrival log. -/
theorem playNextTts_spec (ok : Nat → Bool) :
    ∀ (q : List Nat) (s : TtsState), s.queue = q → s.playing = false → s.current = none →
      (∃ done, s.enqueued = done ++ s.queue ∧ s.started = done.filter ok) →
      TtsInv ok (playNextTts ok s) ∧ (playNextTts ok s).enqueued = s.enqueued := by
  intro q
  induction q with
  | nil =>
    intro s hq hp hc hd
    rw [playNextTts_nil ok s hp hq]
    rcases hd with ⟨done, hdone, hstart⟩
    exact ⟨⟨by simp [hp, hc], by simp [hp], fun _ => hq, done, hdone, hstart⟩, rfl⟩
  | cons b rest ih =>
    intro s hq hp hc hd
    rcases hd with ⟨done, hdone, hstart⟩
    cases hok : ok b with
    | true =>
      rw [playNextTts_ok ok s hp b rest hq hok]
      refine ⟨⟨by simp, by simp, by simp, done ++ [b], ?_, ?_⟩, rfl⟩
      · simp only [hdone, hq, List.append_assoc, List.singleton_append]
      · simp [hstart, List.filter_append, hok]
    | false =>
      rw [playNextTts_fail ok s hp b rest hq hok]
      have := ih { s with queue := rest, playing := false, indicator := false,
                          current := s.current }
        rfl rfl (by simpa using hc)
        ⟨done ++ [b], by simp [hdone, hq], by simp [hstart, List.filter_append, hok]⟩
      simpa using this

/-- One TTS event preserves the queue invariant and appends at most the
new buffer to the arrival log. -/
theorem ttsStep_inv (ok : Nat → Bool) (s : TtsState) (hinv : TtsInv ok s) (e : TtsEv) :
    TtsInv ok (ttsStep ok s e) := by
  rcases hinv with ⟨hcur, hind, hidle, done, hdone, hstart⟩
  cases e with
  | enqueue b =>
    show TtsInv ok (playNextTts ok
      { s with queue := s.queue ++ [b], enqueued := s.enqueued ++ [b] })
    cases hp : s.playing with
    | true =>
      rw [playNextTts_playing ok _ (by simpa using hp)]
      refine ⟨by simpa [hp] using hcur, by simpa [hp] using hind, by simp [hp], done, ?_, hstart⟩
      simp [hdone]
    | false =>
      have hq : s.queue = [] := hidle hp
      have hc : s.current = none := by
        cases hcc : s.current
        · rfl
        · rw [hcc] at hcur; rw [hp] at hcur; cases hcur
      exact (playNextTts_spec ok [b]
        { s with queue := s.queue ++ [b], playing := false, enqueued := s.enqueued ++ [b] }
        (by simp [hq]) rfl hc ⟨done, by simp [hdone], hstart⟩).1
  | ended =>
    show TtsInv ok
      (if s.playing = true then playNextTts ok { s with playing := false, current := none }
       else s)
    cases hp : s.playing with
    | true =>
      rw [if_pos rfl]
      exact (playNextTts_spec ok s.queue { s with playing := false, current := none }
        rfl rfl rfl ⟨done, hdone, hstart⟩).1
    | false =>
      rw [if_neg (by simp)]
      exact ⟨hcur, hind, hidle, done, hdone, hstart⟩

/-- Every run of the TTS queue from the initial state satisfies the
queue invariant. -/
theorem runTts_inv (ok : Nat → Bool) (es : List TtsEv) : TtsInv ok (runTts ok initTts es) := by
  have h0 : TtsInv ok initTts := ⟨rfl, rfl, fun _ => rfl, [], rfl, rfl⟩
  rw [show runTts ok initTts es = (fun s => runTts ok s es) initTts from rfl]
  generalize initTts = s at h0 ⊢
  induction es generalizing s with
  | nil => simpa [runTts] using h0
  | cons e es ih => exact ih _ (ttsStep_inv ok s h0 e)

/-! ## The claims -/

/-- **C1.** In room mode the client begins microphone capture only upon
receiving a `session_status` message with status `active`: `ws.onopen`
alone changes no capture state; receiving `active` (socket open) starts
the `MediaRecorder`; receiving `ready` or `ended` stops capture; and
along every run whose `session_status` sequence follows the server's
phase machine (`Reach`), an active `MediaRecorder` implies the phase is
`active`. -/
theorem claim1_capture_only_in_active_phase :
    (∀ s : CState, (stepEv s Ev.wsOpened).1.capturing = s.capturing) ∧
    (∀ s : CState, s.wsOpen = true →
      (stepEv s (Ev.statusMsg Status.active)).1.capturing = true) ∧
    (∀ s : CState, (stepEv s (Ev.statusMsg Status.ready)).1.capturing = false ∧
      (stepEv s (Ev.statusMsg Status.ended)).1.capturing = false) ∧
    (∀ s : CState, Reach s → s.capturing = true → s.phase = Phase.active) := by
  refine ⟨?_, ?_, ?_, ?_⟩
  · intro s; simp only [stepEv]; split <;> rfl
  · intro s hw; simp [stepEv, onSessionStatus, startAudioCapture, hw]
  · intro s
    exact ⟨by simp [stepEv, onSessionStatus, stopAudioCapture],
      by simp [stepEv, onSessionStatus, stopAudioCapture]⟩
  · intro s hr hc; exact (reach_capturing_active hr hc).1

theorem claim1_witness :
    (runEvents initState [Ev.clickCreate, Ev.wsOpened]).1.capturing = false ∧
    captureState.capturing = true ∧ captureState.phase = Phase.active := by
  have hreach : Reach captureState := by
    have h1 := Reach.next initState Ev.clickCreate Reach.init (by decide)
    have h2 := Reach.next _ Ev.wsOpened h1 (by decide)
    have h3 := Reach.next _ (Ev.statusMsg Status.waiting) h2 (by decide)
    have h4 := Reach.next _ (Ev.statusMsg Status.ready) h3 (by decide)
    exact Reach.next _ (Ev.statusMsg Status.active) h4 (by decide)
  exact ⟨by decide, by decide,
    claim1_capture_only_in_active_phase.2.2.2 captureState hreach (by decide)⟩

/-- **C2.** The client's binary control payloads are exactly the four
4-byte sequences `STRT`, `ENDS`, `MUTE`, `UNMT`: every payload any step
sends is an audio chunk or one of the four markers; `startSession`
sends exactly `STRT`; `endSession` exactly `ENDS`; and `toggleMute`
sends `MUTE` when transitioning to muted and `UNMT` when transitioning
to unmuted. -/
theorem claim2_binary_control_markers :
    (∀ (s : CState) (e : Ev) (p : Payload), p ∈ (stepEv s e).2 →
      (∃ n, p = Payload.audio n) ∨ p = Payload.bytes MARKER_SESSION_START ∨
      p = Payload.bytes MARKER_SESSION_END ∨ p = Payload.bytes MARKER_MIC_MUTE ∨
      p = Payload.bytes MARKER_MIC_UNMUTE) ∧
    (∀ s : CState, s.wsOpen = true → startSession s = [Payload.bytes MARKER_SESSION_START]) ∧
    (∀ s : CState, s.wsOpen = true → endSession s = [Payload.bytes MARKER_SESSION_END]) ∧
    (∀ s : CState, s.wsOpen = true → s.isMuted = false →
      (toggleMute s).1.isMuted = true ∧ (toggleMute s).2 = [Payload.bytes MARKER_MIC_MUTE]) ∧
    (∀ s : CState, s.wsOpen = true → s.isMuted = true →
      (toggleMute s).1.isMuted = false ∧ (toggleMute s).2 = [Payload.bytes MARKER_MIC_UNMUTE]) := by
  refine ⟨?_, ?_, ?_, ?_, ?_⟩
  · intro s e p hp
    rcases stepEv_outputs s e p hp with ⟨n, -, h⟩ | ⟨h, -⟩ | ⟨h, -⟩ | ⟨h | h, -⟩
    · exact Or.inl ⟨n, h⟩
    · exact Or.inr (Or.inl h)
    · exact Or.inr (Or.inr (Or.inl h))
    · exact Or.inr (Or.inr (Or.inr (Or.inl h)))
    · exact Or.inr (Or.inr (Or.inr (Or.inr h)))
  · intro s hw; simp [startSession, hw]
  · intro s hw; simp [endSession, hw]
  · intro s hw hm; simp [toggleMute, hw, hm]
  · intro s hw hm; simp [toggleMute, hw, hm]

theorem claim2_witness :
    ((∃ n, Payload.audio 100 = Payload.audio n) ∨
      Payload.audio 100 = Payload.bytes MARKER_SESSION_START ∨
      Payload.audio 100 = Payload.bytes MARKER_SESSION_END ∨
      Payload.audio 100 = Payload.bytes MARKER_MIC_MUTE ∨
      Payload.audio 100 = Payload.bytes MARKER_MIC_UNMUTE) ∧
    startSession wsOpenState = [Payload.bytes MARKER_SESSION_START] ∧
    endSession wsOpenState = [Payload.bytes MARKER_SESSION_END] ∧
    (toggleMute wsOpenState).2 = [Payload.bytes MARKER_MIC_MUTE] ∧
    (toggleMute { wsOpenState with isMuted := true }).2 = [Payload.bytes MARKER_MIC_UNMUTE] := by
  refine ⟨claim2_binary_control_markers.1 wsOpenState (Ev.dataAvail 100)
      (Payload.audio 100) (by decide), ?_, ?_, ?_, ?_⟩
  · exact claim2_binary_control_markers.2.1 wsOpenState rfl
  · exact claim2_binary_control_markers.2.2.1 wsOpenState rfl
  · exact (claim2_binary_control_markers.2.2.2.1 wsOpenState rfl rfl).2
  · exact (claim2_binary_control_markers.2.2.2.2 { wsOpenState with isMuted := true } rfl rfl).2

/-- **C3.** The encoder restarts on a fixed 30-second cadence: the
interval constant is exactly 30000 ms; a tick with the interval
installed and the recorder recording stops and restarts the recorder
(one fresh WebM header) and keeps capturing; `stopAudioCapture`
cancels the interval; a tick with the interval cancelled changes
nothing; and in every reachable state the interval is installed only
while capture is on, so no restart can occur after capture stops. -/
theorem claim3_encoder_restart_cadence :
    RESTART_INTERVAL_MS = 30000 ∧
    (∀ s : CState, s.restartTimer = true → s.capturing = true →
      (stepEv s Ev.restartTick).1.headerGen = s.headerGen + 1 ∧
      (stepEv s Ev.restartTick).1.capturing = true) ∧
    (∀ s : CState, (stopAudioCapture s).restartTimer = false) ∧
    (∀ s : CState, s.restartTimer = false → (stepEv s Ev.restartTick).1 = s) ∧
    (∀ s : CState, Reach s → s.capturing = false → s.restartTimer = false) := by
  refine ⟨rfl, ?_, fun s => rfl, ?_, ?_⟩
  · intro s ht hc
    simp [stepEv, ht, hc]
  · intro s ht
    simp [stepEv, ht]
  · intro s hr hc
    cases hb : s.restartTimer with
    | false => rfl
    | true => rw [reach_timer_capturing hr hb] at hc; cases hc

theorem claim3_witness :
    RESTART_INTERVAL_MS = 30000 ∧
    (stepEv captureState Ev.restartTick).1.headerGen = captureState.headerGen + 1 ∧
    (stepEv initState Ev.restartTick).1 = initState ∧
    initState.restartTimer = false := by
  have hreach : Reach captureState := by
    have h1 := Reach.next initState Ev.clickCreate Reach.init (by decide)
    have h2 := Reach.next _ Ev.wsOpened h1 (by decide)
    have h3 := Reach.next _ (Ev.statusMsg Status.waiting) h2 (by decide)
    have h4 := Reach.next _ (Ev.statusMsg Status.ready) h3 (by decide)
    exact Reach.next _ (Ev.statusMsg Status.active) h4 (by decide)
  refine ⟨claim3_encoder_restart_cadence.1,
    (claim3_encoder_restart_cadence.2.1 captureState (by decide) (by decide)).1,
    claim3_encoder_restart_cadence.2.2.2.1 initState rfl,
    claim3_encoder_restart_cadence.2.2.2.2 initState Reach.init rfl⟩

/-- **C4.** While muted the client sends no encoded audio: every
`ondataavailable` firing with the mute flag set sends nothing; and a
`toggleMute` invocation (socket open) flips the mute flag and sends
exactly one marker — `MUTE` when becoming muted, `UNMT` when becoming
unmuted. -/
theorem claim4_mute_gates_audio :
    (∀ (s : CState) (n : Nat), s.isMuted = true → ondataavailable s n = []) ∧
    (∀ s : CState, s.wsOpen = true →
      (toggleMute s).1.isMuted = !s.isMuted ∧
      (toggleMute s).2 =
        [Payload.bytes (if s.isMuted then MARKER_MIC_UNMUTE else MARKER_MIC_MUTE)] ∧
      (toggleMute s).2.length = 1) := by
  refine ⟨?_, ?_⟩
  · intro s n hm; simp [ondataavailable, hm]
  · intro s hw
    refine ⟨by simp [toggleMute, hw], ?_, ?_⟩
    · cases hm : s.isMuted <;> simp [toggleMute, hw, hm]
    · simp [toggleMute, hw]

theorem claim4_witness :
    ondataavailable { wsOpenState with isMuted := true } 100 = [] ∧
    (toggleMute wsOpenState).1.isMuted = true ∧
    (toggleMute wsOpenState).2 = [Payload.bytes MARKER_MIC_MUTE] := by
  refine ⟨claim4_mute_gates_audio.1 { wsOpenState with isMuted := true } 100 rfl, ?_, ?_⟩
  · exact (claim4_mute_gates_audio.2 wsOpenState rfl).1
  · exact (claim4_mute_gates_audio.2 wsOpenState rfl).2.1

/-- **C5 counterexample.** The claim says that within the `mic_locked`
window no encoded audio chunk is sent.  In the concrete run
`lockRunEvents` the client is inside a 2000 ms lock window (no time has
passed since `mic_locked` was received, `micLocked` is still set), yet
the `ondataavailable` firing sends the 4096-byte chunk: the
`ondataavailable` guard never consults the lock. -/
theorem claim5_mic_lock_counterexample :
    (runEvents initState lockRunEvents).1.micLocked = true ∧
    (runEvents initState lockRunEvents).1.now = 0 ∧
    (runEvents initState lockRunEvents).1.lockTimeouts = [2000] ∧
    Payload.audio 4096 ∈ (runEvents initState lockRunEvents).2 := by decide

/-- **C5 (amended).** The client records the `mic_locked` hint in UI
state only: receiving `mic_locked` sets the `micLocked` flag and arms a
timeout `duration_ms` (default 2000 when absent) milliseconds later;
once a pending timeout fires the flag is cleared; but the flag does not
inhibit sending — `ondataavailable`'s output is independent of
`micLocked`, so encoded audio continues to be sent during the lock
window (suppression is server-side). -/
theorem claim5_mic_lock_ui_only :
    (∀ (s : CState) (d : Option Nat),
      (onMicLocked s d).micLocked = true ∧
      (onMicLocked s d).lockTimeouts = s.lockTimeouts ++ [s.now + lockDuration d]) ∧
    lockDuration none = 2000 ∧
    (∀ (s : CState) (dt : Nat),
      s.lockTimeouts.any (fun x => decide (x ≤ s.now + dt)) = true →
      (elapse s dt).micLocked = false) ∧
    (∀ (s : CState) (n : Nat),
      ondataavailable { s with micLocked := true } n =
        ondataavailable { s with micLocked := false } n) := by
  refine ⟨fun s d => ⟨rfl, rfl⟩, rfl, ?_, ?_⟩
  · intro s dt h
    simp only [elapse, h, if_pos]
  · intro s n
    simp [ondataavailable]

theorem claim5_witness :
    (onMicLocked wsOpenState (some 2000)).micLocked = true ∧
    (elapse { wsOpenState with lockTimeouts := [2000], micLocked := true } 2500).micLocked
      = false ∧
    ondataavailable { wsOpenState with micLocked := true } 64 =
      ondataavailable { wsOpenState with micLocked := false } 64 := by
  refine ⟨(claim5_mic_lock_ui_only.1 wsOpenState (some 2000)).1, ?_, ?_⟩
  · exact claim5_mic_lock_ui_only.2.2.1
      { wsOpenState with lockTimeouts := [2000], micLocked := true } 2500 (by decide)
  · exact claim5_mic_lock_ui_only.2.2.2 wsOpenState 64

/-- **C6.** Only the host can drive START and END: `connectToRoom` sets
`isCreator` to true exactly when no `room_id` parameter is present
(create path); `handleCreate` yields a creator and `handleJoin` a
guest; the Start and End Session buttons render only for the creator;
and along any run without a Create click the client never sends `STRT`
or `ENDS`. -/
theorem claim6_host_only_start_end :
    (∀ (s : CState) (o : ConnectOpts), (connectToRoom s o).isCreator = o.roomId.isNone) ∧
    (∀ s : CState, s.langA ≠ s.langB → (handleCreate s).isCreator = true) ∧
    (∀ s : CState, upper (trimJs s.joinCode) ≠ "" → (handleJoin s).isCreator = false) ∧
    (∀ s : CState, showStartButton s = true → s.isCreator = true) ∧
    (∀ s : CState, showEndButton s = true → s.isCreator = true) ∧
    (∀ es : List Ev, (∀ e ∈ es, e ≠ Ev.clickCreate) →
      Payload.bytes MARKER_SESSION_START ∉ (runEvents initState es).2 ∧
      Payload.bytes MARKER_SESSION_END ∉ (runEvents initState es).2) := by
  refine ⟨fun s o => rfl, ?_, ?_, ?_, ?_, ?_⟩
  · intro s hne; simp [handleCreate, hne, connectToRoom]
  · intro s hne; simp [handleJoin, hne, connectToRoom]
  · intro s h; simp only [showStartButton, Bool.and_eq_true] at h; exact h.2
  · intro s h; simp only [showEndButton, Bool.and_eq_true] at h; exact h.2
  · intro es hes
    have h := no_create_keeps_guest es initState rfl hes
    exact ⟨h.2.1, h.2.2⟩

theorem claim6_witness :
    (connectToRoom initState
      { roomId := some "AB12CD", name := "Bob", myLang := none, partnerLang := none }).isCreator
      = false ∧
    (connectToRoom initState
      { roomId := none, name := "Alice", myLang := some "en", partnerLang := some "es" }).isCreator
      = true ∧
    (handleCreate initState).isCreator = true ∧
    (handleJoin { initState with joinCode := "ab12cd" }).isCreator = false ∧
    ({ initState with phase := Phase.ready, isCreator := true } : CState).isCreator = true ∧
    Payload.bytes MARKER_SESSION_START ∉ (runEvents initState joinRunEvents).2 ∧
    Payload.bytes MARKER_SESSION_END ∉ (runEvents initState joinRunEvents).2 := by
  have h6 := claim6_host_only_start_end.2.2.2.2.2 joinRunEvents (by decide)
  refine ⟨claim6_host_only_start_end.1 initState _, claim6_host_only_start_end.1 initState _,
    claim6_host_only_start_end.2.1 initState (by decide),
    claim6_host_only_start_end.2.2.1 { initState with joinCode := "ab12cd" } (by decide),
    claim6_host_only_start_end.2.2.2.1 { initState with phase := Phase.ready, isCreator := true }
      rfl,
    h6.1, h6.2⟩

/-- **C7 (code bug).** The solo endpoint's query string never contains
`tts=true`: the builder pushes `tts=false` exactly when the TTS toggle
is disabled and pushes nothing for `tts` when it is enabled — with the
toggle enabled and defaults otherwise, the query is exactly
`target_lang=es`.  The `lang` and `target_lang` parts do behave as
claimed (present exactly for a non-`auto` language and a non-`none`
target). -/
theorem claim7_tts_param_divergence :
    soloQueryString SoloLang.auto SoloTarget.es true = "target_lang=es" ∧
    (∀ (l : SoloLang) (t : SoloTarget) (b : Bool), "tts=true" ∉ soloQueryParams l t b) ∧
    (∀ (l : SoloLang) (t : SoloTarget) (b : Bool),
      ("tts=false" ∈ soloQueryParams l t b ↔ b = false)) ∧
    (∀ (l : SoloLang) (t : SoloTarget) (b : Bool),
      (("lang=" ++ l.code) ∈ soloQueryParams l t b ↔ l ≠ SoloLang.auto)) ∧
    (∀ (l : SoloLang) (t : SoloTarget) (b : Bool),
      (("target_lang=" ++ t.code) ∈ soloQueryParams l t b ↔ t ≠ SoloTarget.noTarget)) :=
  ⟨by decide, by decide, by decide, by decide, by decide⟩

theorem RoomLang.code_ne_empty (l : RoomLang) : l.code ≠ "" := by
  cases l <;> decide

/-- **C8.** Room creation enforces a non-equal language pair at the
client: with equal languages `handleCreate` only sets the error
`'Languages must be different'` (the rest of the state, including the
connection, is unchanged); with differing languages it opens a
connection carrying `my_lang` and `partner_lang`. -/
theorem claim8_create_language_guard :
    (∀ s : CState, s.langA = s.langB →
      handleCreate s = { s with errorMsg := some "Languages must be different" }) ∧
    (∀ s : CState, s.langA ≠ s.langB →
      (handleCreate s).conn =
        some [("my_lang", s.langA.code), ("partner_lang", s.langB.code),
          ("name", orDefault s.myName "User")] ∧
      (handleCreate s).isCreator = true ∧
      (handleCreate s).errorMsg = none) := by
  refine ⟨?_, ?_⟩
  · intro s he; simp [handleCreate, he]
  · intro s hne
    refine ⟨?_, ?_, ?_⟩ <;>
      simp [handleCreate, hne, connectToRoom, orDefault, RoomLang.code_ne_empty]

theorem claim8_witness :
    handleCreate { initState with langB := RoomLang.en } =
      { initState with langB := RoomLang.en, errorMsg := some "Languages must be different" } ∧
    (handleCreate { initState with langB := RoomLang.en }).conn = none ∧
    (handleCreate { initState with myName := "Alice" }).conn =
      some [("my_lang", "en"), ("partner_lang", "es"), ("name", "Alice")] ∧
    (handleCreate { initState with myName := "Alice" }).isCreator = true := by
  have h1 := claim8_create_language_guard.1 { initState with langB := RoomLang.en } rfl
  have h2 := claim8_create_language_guard.2 { initState with myName := "Alice" } (by decide)
  refine ⟨h1, by decide, ?_, h2.2.1⟩
  · rw [h2.1]
    decide

theorem handleJoin_conn (s : CState) :
    (handleJoin s).conn =
      if upper (trimJs s.joinCode) = "" then s.conn
      else some [("room_id", upper (trimJs s.joinCode)), ("name", orDefault s.joinName "User")] := by
  unfold handleJoin connectToRoom
  split <;> rfl

theorem handleJoin_errorMsg (s : CState) :
    (handleJoin s).errorMsg =
      if upper (trimJs s.joinCode) = "" then some "Please enter a room code" else none := by
  unfold handleJoin connectToRoom
  split <;> rfl

/-- **C9.** Room codes are case-insensitive at join: the `room_id`
parameter equals the uppercase of the trimmed entered code; two join
attempts whose codes agree after trim-and-uppercase produce the same
connection parameters and the same error outcome; and an empty or
all-whitespace code only sets the error `'Please enter a room code'`,
opening no connection. -/
theorem claim9_join_code_normalization :
    (∀ s : CState, upper (trimJs s.joinCode) ≠ "" →
      (handleJoin s).conn =
        some [("room_id", upper (trimJs s.joinCode)), ("name", orDefault s.joinName "User")] ∧
      (handleJoin s).isCreator = false ∧
      (handleJoin s).errorMsg = none) ∧
    (∀ (s : CState) (c1 c2 : String), upper (trimJs c1) = upper (trimJs c2) →
      (handleJoin { s with joinCode := c1 }).conn =
        (handleJoin { s with joinCode := c2 }).conn ∧
      (handleJoin { s with joinCode := c1 }).errorMsg =
        (handleJoin { s with joinCode := c2 }).errorMsg) ∧
    (∀ s : CState, trimJs s.joinCode = "" →
      handleJoin s = { s with errorMsg := some "Please enter a room code" }) := by
  refine ⟨?_, ?_, ?_⟩
  · intro s h
    refine ⟨?_, ?_, ?_⟩ <;> simp [handleJoin, h, connectToRoom]
  · intro s c1 c2 h
    constructor
    · rw [handleJoin_conn, handleJoin_conn]
      simp only [h]
    · rw [handleJoin_errorMsg, handleJoin_errorMsg]
      simp only [h]
  · intro s h
    have h' : upper (trimJs s.joinCode) = "" := by rw [h]; rfl
    simp [handleJoin, h']

theorem claim9_witness :
    (handleJoin { initState with joinCode := " ab12cd" }).conn =
      some [("room_id", "AB12CD"), ("name", "User")] ∧
    (handleJoin { initState with joinCode := " ab12cd" }).conn =
      (handleJoin { initState with joinCode := "AB12CD  " }).conn ∧
    handleJoin { initState with joinCode := "   " } =
      { initState with joinCode := "   ", errorMsg := some "Please enter a room code" } := by
  have h1 := claim9_join_code_normalization.1 { initState with joinCode := " ab12cd" } (by decide)
  refine ⟨by rw [h1.1]; decide, ?_, ?_⟩
  · exact (claim9_join_code_normalization.2.1 initState " ab12cd" "AB12CD  " (by decide)).1
  · exact claim9_join_code_normalization.2.2 { initState with joinCode := "   " } (by decide)

/-- **C10.** The client's TTS playback queue is strictly sequential
FIFO: in every run, the playing flag (`ttsPlayingRef`) mirrors the
existence of the single current source and drives the indicator; when
idle the queue is fully drained; the buffers whose playback started are
the decodable ones of a processed prefix of the arrival order, so
playback happens in exactly enqueue order and each buffer plays at most
once; a decodable arrival at an idle queue starts playing immediately;
a failing buffer is dropped with the flags cleared; and when the
playing source ends on a drained queue the flags are cleared. -/
theorem claim10_tts_queue_fifo :
    (∀ (ok : Nat → Bool) (es : List TtsEv),
      (runTts ok initTts es).playing = (runTts ok initTts es).current.isSome ∧
      (runTts ok initTts es).indicator = (runTts ok initTts es).playing ∧
      ((runTts ok initTts es).playing = false → (runTts ok initTts es).queue = []) ∧
      (∃ done, (runTts ok initTts es).enqueued = done ++ (runTts ok initTts es).queue ∧
        (runTts ok initTts es).started = done.filter ok) ∧
      (runTts ok initTts es).started.Sublist (runTts ok initTts es).enqueued ∧
      (∀ b, (runTts ok initTts es).started.count b ≤ (runTts ok initTts es).enqueued.count b)) ∧
    (∀ (ok : Nat → Bool) (s : TtsState) (b : Nat), TtsInv ok s → s.playing = false →
      ok b = true →
      (ttsStep ok s (TtsEv.enqueue b)).playing = true ∧
      (ttsStep ok s (TtsEv.enqueue b)).current = some b ∧
      (ttsStep ok s (TtsEv.enqueue b)).started = s.started ++ [b]) ∧
    (∀ (ok : Nat → Bool) (s : TtsState) (b : Nat), TtsInv ok s → s.playing = false →
      ok b = false →
      (ttsStep ok s (TtsEv.enqueue b)).playing = false ∧
      (ttsStep ok s (TtsEv.enqueue b)).indicator = false ∧
      (ttsStep ok s (TtsEv.enqueue b)).started = s.started) ∧
    (∀ (ok : Nat → Bool) (s : TtsState), TtsInv ok s → s.playing = true → s.queue = [] →
      (ttsStep ok s TtsEv.ended).playing = false ∧
      (ttsStep ok s TtsEv.ended).indicator = false) := by
  refine ⟨?_, ?_, ?_, ?_⟩
  · intro ok es
    rcases runTts_inv ok es with ⟨hcur, hind, hidle, done, hdone, hstart⟩
    have hsub : (runTts ok initTts es).started.Sublist (runTts ok initTts es).enqueued := by
      rw [hdone, hstart]
      exact (List.filter_sublist done).trans (List.sublist_append_left done _)
    exact ⟨hcur, hind, hidle, ⟨done, hdone, hstart⟩, hsub, fun b => hsub.count_le b⟩
  · intro ok s b hinv hp hok
    have hq : s.queue = [] := hinv.2.2.1 hp
    rw [show ttsStep ok s (TtsEv.enqueue b) =
      playNextTts ok { s with queue := s.queue ++ [b], enqueued := s.enqueued ++ [b] } from rfl,
      playNextTts_ok ok { s with queue := s.queue ++ [b], enqueued := s.enqueued ++ [b] }
        hp b [] (by simp [hq]) hok]
    exact ⟨rfl, rfl, rfl⟩
  · intro ok s b hinv hp hok
    have hq : s.queue = [] := hinv.2.2.1 hp
    rw [show ttsStep ok s (TtsEv.enqueue b) =
      playNextTts ok { s with queue := s.queue ++ [b], enqueued := s.enqueued ++ [b] } from rfl,
      playNextTts_fail ok { s with queue := s.queue ++ [b], enqueued := s.enqueued ++ [b] }
        hp b [] (by simp [hq]) hok,
      playNextTts_nil ok
        { queue := [], playing := false, indicator := false, current := s.current,
          started := s.started, enqueued := s.enqueued ++ [b] } rfl rfl]
    exact ⟨rfl, rfl, rfl⟩
  · intro ok s hinv hp hq
    rw [show ttsStep ok s TtsEv.ended =
      (if s.playing = true then playNextTts ok { s with playing := false, current := none }
       else s) from rfl,
      if_pos hp, playNextTts_nil ok { s with playing := false, current := none } rfl hq]
    exact ⟨rfl, rfl⟩

theorem claim10_witness :
    ((runTts (fun _ => true) initTts [TtsEv.enqueue 1, TtsEv.enqueue 2, TtsEv.ended]).started.Sublist
      (runTts (fun _ => true) initTts [TtsEv.enqueue 1, TtsEv.enqueue 2, TtsEv.ended]).enqueued) ∧
    (ttsStep (fun _ => true) initTts (TtsEv.enqueue 5)).playing = true ∧
    (ttsStep (fun _ => false) initTts (TtsEv.enqueue 7)).indicator = false ∧
    (ttsStep (fun _ => true)
      { queue := [], playing := true, indicator := true, current := some 9,
        started := [9], enqueued := [9] } TtsEv.ended).playing = false := by
  refine ⟨(claim10_tts_queue_fifo.1 (fun _ => true)
      [TtsEv.enqueue 1, TtsEv.enqueue 2, TtsEv.ended]).2.2.2.2.1, ?_, ?_, ?_⟩
  · exact (claim10_tts_queue_fifo.2.1 (fun _ => true) initTts 5
      ⟨rfl, rfl, fun _ => rfl, [], rfl, rfl⟩ rfl rfl).1
  · exact (claim10_tts_queue_fifo.2.2.1 (fun _ => false) initTts 7
      ⟨rfl, rfl, fun _ => rfl, [], rfl, rfl⟩ rfl rfl).2.1
  · exact (claim10_tts_queue_fifo.2.2.2 (fun _ => true)
      { queue := [], playing := true, indicator := true, current := some 9,
        started := [9], enqueued := [9] }
      ⟨rfl, rfl, fun h => Bool.noConfusion h, ⟨[9], rfl, rfl⟩⟩ rfl rfl).1

end AudioPoc
